import Mathlib

/-!
Shallow embedding of the core inference logic of `src/app.py`
(payroll schedule generator): the punch parser (`parse_attendance`,
with its inner `to_dt` time parser), the shift matcher (`gap`,
`choose_shift` over the fixed catalog `SHIFTS`), and the per-record
assignment and output-formatting steps of the generation loop.

Modelling conventions:
- A Python `datetime` is an `Int`: seconds since an arbitrary epoch,
  with every day exactly 86400 seconds (naive datetimes, as in the
  source).  `dt.date()` is the floor day index; `datetime.combine`
  rebuilds seconds from a day index and a time-of-day in seconds.
  `timedelta` arithmetic and `total_seconds() // 60` are exact on
  these values, so `Int.fdiv` models the Python floor division.
- A Python `str` is a `List Char` (a sequence of code points);
  slicing `s[:5]`, `s[5:]`, `s[-5:]` is `take`/`drop`, and `.strip()`
  drops whitespace at both ends.
- The attendance cell is `Option (List Char)`: `none` models both
  `None` and a pandas `NaN` (the `pd.isna(...) or ... is None` guard);
  `some s` is the stripped-to-be string content.
- `datetime.strptime(f"{date_str} {t}", "%Y-%m-%d %H:%M")` is modelled
  for the call sites that occur: `date_str` is always the `strftime`
  output of a valid date, so the date part of the match is
  deterministic and is represented by the already-decoded day index
  `day : Int`; the remaining work is the regex match of
  `\s+(2[0-3]|[0-1]\d|\d):([0-5]\d|\d)` against the space plus the
  token, anchored at both ends, which `to_dt` implements (including
  the first-alternative-wins backtracking order of `_strptime`).
  A failed match is the `except: return None` branch.
-/

/-- `class Shift(NamedTuple)`: an id and a nominal start time-of-day
(seconds after midnight). -/
structure Shift where
  id : List Char
  start : Int
deriving DecidableEq

/-- The fixed 7-template catalog `SHIFTS` of `src/app.py`. -/
def SHIFTS : List Shift :=
  [⟨"06-15".data, 6 * 3600⟩,
   ⟨"07-16".data, 7 * 3600⟩,
   ⟨"08-17".data, 8 * 3600⟩,
   ⟨"09-18".data, 9 * 3600⟩,
   ⟨"10-19".data, 10 * 3600⟩,
   ⟨"12-21".data, 12 * 3600⟩,
   ⟨"01-22".data, 13 * 3600⟩]

/-- `GRACE = timedelta(minutes=5)`, in seconds. -/
def GRACE : Int := 300

/-- `gap(a, b) = max(0, int(((abs(a - b) - GRACE).total_seconds() // 60)))`. -/
def gap (a b : Int) : Int :=
  max 0 ((|a - b| - GRACE).fdiv 60)

/-- `dt.date()` as a day index (floor of seconds by 86400). -/
def dateOf (a : Int) : Int := a.fdiv 86400

/-- `datetime.combine(day, time-of-day)`. -/
def combine (day t : Int) : Int := day * 86400 + t

/-- Cost of one template inside the `choose_shift` loop:
`gap(first_in, s_start) + gap(last_out, s_end)` with
`s_start = combine(first_in.date(), s.start)` and `s_end = s_start + 9h`. -/
def shiftCost (first_in last_out : Int) (s : Shift) : Int :=
  gap first_in (combine (dateOf first_in) s.start)
    + gap last_out (combine (dateOf first_in) s.start + 9 * 3600)

/-- The `for s in SHIFTS` loop of `choose_shift`.  The accumulator is
`(best_id, best_cost)`; `none` is the initial `(None, float("inf"))`
state, against which any finite cost compares strictly smaller. -/
def choose_loop (first_in last_out : Int) :
    Option (List Char × Int) → List Shift → Option (List Char × Int)
  | acc, [] => acc
  | acc, s :: rest =>
    let cost := shiftCost first_in last_out s
    let acc' :=
      match acc with
      | none => some (s.id, cost)
      | some (bid, bcost) => if cost < bcost then some (s.id, cost) else some (bid, bcost)
    choose_loop first_in last_out acc' rest

/-- `choose_shift` generalized over the catalog it iterates (the source
iterates the module-level `SHIFTS`); returns the final `best_id`. -/
def choose_shift_from (first_in last_out : Int) (catalog : List Shift) : Option (List Char) :=
  (choose_loop first_in last_out none catalog).map Prod.fst

/-- `choose_shift(first_in, last_out)` of `src/app.py`. -/
def choose_shift (first_in last_out : Int) : Option (List Char) :=
  choose_shift_from first_in last_out SHIFTS

/-- Python whitespace test (`str.strip` / regex `\s`) on the characters
that occur in attendance cells. -/
def isSpace (c : Char) : Bool := c.isWhitespace

/-- `str(x).strip()`: drop whitespace at both ends. -/
def pyStrip (s : List Char) : List Char :=
  ((s.dropWhile isSpace).reverse.dropWhile isSpace).reverse

/-- Digit value of a character (only meaningful when `c.isDigit`). -/
def digitVal (c : Char) : Nat := c.toNat - 48

/-- The `_strptime` regex alternatives for `%H`, i.e.
`2[0-3]|[0-1]\d|\d`, in backtracking order: each element is a parsed
hour together with the unconsumed rest. -/
def hourParses : List Char → List (Nat × List Char)
  | [] => []
  | [c0] => if c0.isDigit then [(digitVal c0, ([] : List Char))] else []
  | c0 :: c1 :: rest =>
    (if (c0 = '2' ∧ '0' ≤ c1 ∧ c1 ≤ '3') ∨ ((c0 = '0' ∨ c0 = '1') ∧ c1.isDigit) then
      [(digitVal c0 * 10 + digitVal c1, rest)] else [])
    ++ (if c0.isDigit then [(digitVal c0, c1 :: rest)] else [])

/-- The `_strptime` regex alternatives for `%M`, i.e. `[0-5]\d|\d`. -/
def minuteParses : List Char → List (Nat × List Char)
  | [] => []
  | [c0] => if c0.isDigit then [(digitVal c0, ([] : List Char))] else []
  | c0 :: c1 :: rest =>
    (if ('0' ≤ c0 ∧ c0 ≤ '5' ∧ c1.isDigit) then
      [(digitVal c0 * 10 + digitVal c1, rest)] else [])
    ++ (if c0.isDigit then [(digitVal c0, c1 :: rest)] else [])

/-- All full matches of `(2[0-3]|[0-1]\d|\d):([0-5]\d|\d)` against `cs`
(anchored at both ends), in backtracking order. -/
def hmMatches (cs : List Char) : List (Nat × Nat) :=
  (hourParses cs).flatMap (fun hr =>
    match hr.2 with
    | ':' :: r2 =>
      (minuteParses r2).filterMap (fun mr => if mr.2 = [] then some (hr.1, mr.1) else none)
    | _ => [])

/-- `to_dt(t)` inside `parse_attendance`: `None` for a falsy `t`,
otherwise `datetime.strptime(f"{date_str} {t}", "%Y-%m-%d %H:%M")`
with `None` on failure.  The format's literal space matches `\s+`, so
the time part is matched against `' ' :: t` after the maximal
whitespace run is consumed. -/
def to_dt (day : Int) (t : List Char) : Option Int :=
  if t = [] then none
  else
    match (hmMatches ((' ' :: t).dropWhile isSpace)).head? with
    | some hm => some (combine day (hm.1 * 3600 + hm.2 * 60))
    | none => none

/-- The dict `parse_attendance` returns:
`{'time_in': ..., 'time_out': ..., 'needs_approval': ...}`. -/
structure PunchRecord where
  time_in : Option Int
  time_out : Option Int
  needs_approval : Bool
deriving DecidableEq

/-- `parse_attendance(attendance_str, date_str)` of `src/app.py`;
`day` is the decoded day index of the (always valid) `date_str`. -/
def parse_attendance (attendance_str : Option (List Char)) (day : Int) : PunchRecord :=
  match attendance_str with
  | none => ⟨none, none, false⟩
  | some raw =>
    let s := pyStrip raw
    let n := s.length
    if n = 10 then ⟨to_dt day (s.take 5), to_dt day (s.drop 5), false⟩
    else if 10 < n ∧ n % 5 = 0 then
      ⟨to_dt day (s.take 5), to_dt day (s.drop (n - 5)), false⟩
    else if n = 5 then ⟨to_dt day s, to_dt day s, true⟩
    else ⟨none, none, true⟩

/-- The per-record guard of the parse-and-assign loop (lines 157-167):
`rec["shift"] = choose_shift(...) if time_in and time_out and not
needs_approval else None` (a `datetime` is always truthy, so the tests
are non-`None` tests). -/
def assign_shift (rec : PunchRecord) : Option (List Char) :=
  match rec.time_in, rec.time_out, rec.needs_approval with
  | some fi, some lo, false => choose_shift fi lo
  | _, _, _ => none

/-- `'0'`-padded two-digit rendering, as `strftime` emits for `%H`/`%M`. -/
def fmt2 (n : Nat) : List Char :=
  [Char.ofNat (48 + n / 10), Char.ofNat (48 + n % 10)]

/-- `dt.strftime("%H:%M")` on a datetime-as-seconds value. -/
def strftimeHM (dt : Int) : List Char :=
  fmt2 (((dt.emod 86400).toNat) / 3600) ++ [':'] ++ fmt2 ((((dt.emod 86400).toNat) % 3600) / 60)

/-- The fields of one schedule entry built by the format-for-UI loop
(lines 177-185) that derive from the parsed record: `start`, `end`,
`shift`, and `approval = not needs_approval` (the pass-through fields
`date` and `attendance` are omitted). -/
structure DayOut where
  start : Option (List Char)
  end_ : Option (List Char)
  shift : Option (List Char)
  approval : Bool
deriving DecidableEq

/-- One iteration of the format-for-UI loop on a parsed record and its
assigned shift. -/
def format_day (rec : PunchRecord) (shift : Option (List Char)) : DayOut :=
  ⟨rec.time_in.map strftimeHM, rec.time_out.map strftimeHM, shift, !rec.needs_approval⟩

/-- The full per-(employee, date) pipeline: parse, then assign, then
format. -/
def process_day (attendance_str : Option (List Char)) (day : Int) : DayOut :=
  let rec_ := parse_attendance attendance_str day
  format_day rec_ (assign_shift rec_)

/-! ### Loop invariants of `choose_shift` -/

/-- Once the accumulator holds a cost no larger than every remaining
candidate's cost, the loop never replaces it (the comparison is a
strict `<`). -/
theorem choose_loop_keep (fi lo : Int) (bid : List Char) (bcost : Int) :
    ∀ l : List Shift, (∀ s ∈ l, bcost ≤ shiftCost fi lo s) →
      choose_loop fi lo (some (bid, bcost)) l = some (bid, bcost)
  | [], _ => rfl
  | s :: rest, h => by
    have hns : ¬ shiftCost fi lo s < bcost :=
      not_lt.mpr (h s (List.mem_cons_self s rest))
    simp only [choose_loop, if_neg hns]
    exact choose_loop_keep fi lo bid bcost rest
      (fun x hx => h x (List.mem_cons_of_mem s hx))

/-- The loop always ends in a `some` state, and the id it carries is
either the one it started with or the id of some processed candidate. -/
theorem choose_loop_mem (fi lo : Int) :
    ∀ (l : List Shift) (bid : List Char) (bcost : Int),
      ∃ p : List Char × Int, choose_loop fi lo (some (bid, bcost)) l = some p ∧
        (p.1 = bid ∨ p.1 ∈ l.map Shift.id)
  | [], bid, bcost => ⟨(bid, bcost), rfl, Or.inl rfl⟩
  | s :: rest, bid, bcost => by
    by_cases hlt : shiftCost fi lo s < bcost
    · obtain ⟨p, hp, hmem⟩ := choose_loop_mem fi lo rest s.id (shiftCost fi lo s)
      refine ⟨p, ?_, ?_⟩
      · simpa only [choose_loop, if_pos hlt] using hp
      · rcases hmem with h | h
        · exact Or.inr (by rw [List.map_cons, h]; exact List.mem_cons_self _ _)
        · exact Or.inr (by rw [List.map_cons]; exact List.mem_cons_of_mem _ h)
    · obtain ⟨p, hp, hmem⟩ := choose_loop_mem fi lo rest bid bcost
      refine ⟨p, ?_, ?_⟩
      · simpa only [choose_loop, if_neg hlt] using hp
      · rcases hmem with h | h
        · exact Or.inl h
        · exact Or.inr (by rw [List.map_cons]; exact List.mem_cons_of_mem _ h)

/-- If position `i` holds the first candidate attaining the minimum
cost among `l`, and that cost beats the accumulator strictly, the loop
ends exactly there. -/
theorem choose_loop_firstmin (fi lo : Int) :
    ∀ (l : List Shift) (bid : List Char) (bcost : Int) (i : Nat) (hi : i < l.length),
      shiftCost fi lo (l.get ⟨i, hi⟩) < bcost →
      (∀ (j : Nat) (hj : j < l.length),
        shiftCost fi lo (l.get ⟨i, hi⟩) ≤ shiftCost fi lo (l.get ⟨j, hj⟩)) →
      (∀ (j : Nat) (hj : j < i),
        shiftCost fi lo (l.get ⟨i, hi⟩) < shiftCost fi lo (l.get ⟨j, Nat.lt_trans hj hi⟩)) →
      choose_loop fi lo (some (bid, bcost)) l
        = some ((l.get ⟨i, hi⟩).id, shiftCost fi lo (l.get ⟨i, hi⟩))
  | [], _, _, i, hi, _, _, _ => absurd hi (Nat.not_lt_zero i)
  | s :: rest, bid, bcost, 0, _, hlt, hmin, _ => by
    simp only [List.get] at hlt hmin ⊢
    simp only [choose_loop, if_pos hlt]
    refine choose_loop_keep fi lo s.id (shiftCost fi lo s) rest (fun x hx => ?_)
    obtain ⟨⟨j, hj⟩, hget⟩ := List.mem_iff_get.mp hx
    have := hmin (j + 1) (Nat.succ_lt_succ hj)
    rwa [show (s :: rest).get ⟨j + 1, Nat.succ_lt_succ hj⟩ = rest.get ⟨j, hj⟩ from rfl,
      hget] at this
  | s :: rest, bid, bcost, i + 1, hi, hlt, hmin, hfirst => by
    have hi' : i < rest.length := Nat.lt_of_succ_lt_succ hi
    have hget : (s :: rest).get ⟨i + 1, hi⟩ = rest.get ⟨i, hi'⟩ := rfl
    have hhead : shiftCost fi lo (rest.get ⟨i, hi'⟩) < shiftCost fi lo s := by
      have := hfirst 0 (Nat.succ_pos i)
      rwa [hget, show (s :: rest).get ⟨0, Nat.lt_trans (Nat.succ_pos i) hi⟩ = s from rfl]
        at this
    rw [hget] at hlt hmin hfirst ⊢
    by_cases hlt0 : shiftCost fi lo s < bcost
    · simp only [choose_loop, if_pos hlt0]
      refine choose_loop_firstmin fi lo rest s.id (shiftCost fi lo s) i hi' hhead
        (fun j hj => ?_) (fun j hj => ?_)
      · exact hmin (j + 1) (Nat.succ_lt_succ hj)
      · exact hfirst (j + 1) (Nat.succ_lt_succ hj)
    · simp only [choose_loop, if_neg hlt0]
      refine choose_loop_firstmin fi lo rest bid bcost i hi' hlt
        (fun j hj => ?_) (fun j hj => ?_)
      · exact hmin (j + 1) (Nat.succ_lt_succ hj)
      · exact hfirst (j + 1) (Nat.succ_lt_succ hj)

/-! ### Branch equations of the punch parser and the assignment guard -/

/-- `n == 10` branch of `parse_attendance`. -/
theorem parse_attendance_len10 (s : List Char) (day : Int) (hs : pyStrip s = s)
    (h10 : s.length = 10) :
    parse_attendance (some s) day = ⟨to_dt day (s.take 5), to_dt day (s.drop 5), false⟩ := by
  simp [parse_attendance, hs, h10]

/-- `n > 10 and n % 5 == 0` branch of `parse_attendance`. -/
theorem parse_attendance_lengt10 (s : List Char) (day : Int) (hs : pyStrip s = s)
    (hgt : 10 < s.length) (hmod : s.length % 5 = 0) :
    parse_attendance (some s) day
      = ⟨to_dt day (s.take 5), to_dt day (s.drop (s.length - 5)), false⟩ := by
  have h10 : ¬ s.length = 10 := by omega
  simp [parse_attendance, hs, h10, hgt, hmod]

/-- `n == 5` branch of `parse_attendance`. -/
theorem parse_attendance_len5 (s : List Char) (day : Int) (hs : pyStrip s = s)
    (h5 : s.length = 5) :
    parse_attendance (some s) day = ⟨to_dt day s, to_dt day s, true⟩ := by
  have h10 : ¬ s.length = 10 := by omega
  have hgt : ¬ (10 < s.length ∧ s.length % 5 = 0) := by omega
  simp [parse_attendance, hs, h10, hgt, h5]

/-- Fallthrough branch of `parse_attendance` (any other length). -/
theorem parse_attendance_irregular (s : List Char) (day : Int) (hs : pyStrip s = s)
    (h5 : ¬ s.length = 5) (h10 : ¬ s.length = 10)
    (hgt : ¬ (10 < s.length ∧ s.length % 5 = 0)) :
    parse_attendance (some s) day = ⟨none, none, true⟩ := by
  simp [parse_attendance, hs, h10, hgt, h5]

/-- A record with no in-punch is never matched. -/
theorem assign_shift_no_in (x : Option Int) (b : Bool) :
    assign_shift ⟨none, x, b⟩ = none := by
  cases x <;> cases b <;> rfl

/-- A record with no out-punch is never matched. -/
theorem assign_shift_no_out (x : Option Int) (b : Bool) :
    assign_shift ⟨x, none, b⟩ = none := by
  cases x <;> cases b <;> rfl

/-! ### Claims -/

/-- C1: for every non-empty catalog and every pair of (timeIn, timeOut)
inputs, the shift matcher returns a shift id that is present in the
catalog; it always produces a result and never returns null. -/
theorem choose_shift_total (first_in last_out : Int) (catalog : List Shift)
    (h : catalog ≠ []) :
    ∃ id, choose_shift_from first_in last_out catalog = some id
      ∧ id ∈ catalog.map Shift.id := by
  cases catalog with
  | nil => exact absurd rfl h
  | cons s rest =>
    obtain ⟨p, hp, hmem⟩ :=
      choose_loop_mem first_in last_out rest s.id (shiftCost first_in last_out s)
    refine ⟨p.1, ?_, ?_⟩
    · show (choose_loop first_in last_out
          (some (s.id, shiftCost first_in last_out s)) rest).map Prod.fst = some p.1
      rw [hp]; rfl
    · rcases hmem with h1 | h1
      · rw [List.map_cons, h1]; exact List.mem_cons_self _ _
      · rw [List.map_cons]; exact List.mem_cons_of_mem _ h1

/-- Witness for C1 at the embedded catalog and a concrete punch pair. -/
theorem choose_shift_total_witness :
    SHIFTS ≠ [] ∧ ∃ id, choose_shift_from 0 0 SHIFTS = some id ∧ id ∈ SHIFTS.map Shift.id :=
  ⟨by decide, choose_shift_total 0 0 SHIFTS (by decide)⟩

/-- C2 counterexample: on the empty string the parser returns
`needs_approval = true`, not the claimed all-null unflagged record
(the `pd.isna`/`is None` guard does not catch the empty string, whose
length 0 then falls to the malformed-length branch). -/
theorem parse_attendance_empty_string_flags :
    ¬ parse_attendance (some ("".data)) 0 = ⟨none, none, false⟩ := by decide

/-- C2 (amended): missing input (`None` or `NaN`) yields
`timeIn = null, timeOut = null, needsApproval = false`; the empty
string `""` instead yields `needsApproval = true`. -/
theorem parse_attendance_empty (day : Int) :
    parse_attendance none day = ⟨none, none, false⟩
    ∧ parse_attendance (some ("".data)) day = ⟨none, none, true⟩ :=
  ⟨rfl, rfl⟩

/-- C3: for a trimmed string of length exactly 10, the first 5
characters become timeIn and the last 5 become timeOut with
`needsApproval = false`; for a trimmed string longer than 10 whose
length is a multiple of 5, the first 5-character token becomes timeIn
and the last 5-character token becomes timeOut, interior tokens are
discarded, and `needsApproval = false`. -/
theorem parse_attendance_clean_lengths (s : List Char) (day : Int) (hs : pyStrip s = s) :
    (s.length = 10 →
      parse_attendance (some s) day
        = ⟨to_dt day (s.take 5), to_dt day (s.drop 5), false⟩)
    ∧ (10 < s.length → s.length % 5 = 0 →
      parse_attendance (some s) day
        = ⟨to_dt day (s.take 5), to_dt day (s.drop (s.length - 5)), false⟩) :=
  ⟨fun h10 => parse_attendance_len10 s day hs h10,
   fun hgt hmod => parse_attendance_lengt10 s day hs hgt hmod⟩

/-- Witness for C3 on the spec's own example `"08:0017:05"`. -/
theorem parse_attendance_clean_lengths_witness :
    parse_attendance (some ("08:0017:05".data)) 0 = ⟨some 28800, some 61500, false⟩ := by
  have h := (parse_attendance_clean_lengths ("08:0017:05".data) 0 (by decide)).1 (by decide)
  rw [h]; decide

/-- C4: the parser is total and degrades instead of raising: a trimmed
string of length exactly 5 yields both endpoints equal to that single
parsed time with `needsApproval = true`; any other irregular length
yields both endpoints null with `needsApproval = true`; and a token
that fails to parse as a valid HH:MM time yields a null endpoint
rather than an exception. -/
theorem parse_attendance_never_raises (raw : List Char) (day : Int) :
    ((pyStrip raw).length = 5 →
      parse_attendance (some raw) day
        = ⟨to_dt day (pyStrip raw), to_dt day (pyStrip raw), true⟩)
    ∧ (¬ (pyStrip raw).length = 5 → ¬ (pyStrip raw).length = 10 →
        ¬ (10 < (pyStrip raw).length ∧ (pyStrip raw).length % 5 = 0) →
        parse_attendance (some raw) day = ⟨none, none, true⟩)
    ∧ to_dt day ("ab:cd".data) = none := by
  refine ⟨fun h5 => ?_, fun h5 h10 hgt => ?_, rfl⟩
  · have h10 : ¬ (pyStrip raw).length = 10 := by omega
    have hgt : ¬ (10 < (pyStrip raw).length ∧ (pyStrip raw).length % 5 = 0) := by omega
    simp [parse_attendance, h10, hgt, h5]
  · simp [parse_attendance, h10, hgt, h5]

/-- Witness for C4 on the single-punch input `"08:00"`. -/
theorem parse_attendance_never_raises_witness :
    parse_attendance (some ("08:00".data)) 0
      = ⟨to_dt 0 (pyStrip ("08:00".data)), to_dt 0 (pyStrip ("08:00".data)), true⟩ :=
  (parse_attendance_never_raises ("08:00".data) 0).1 (by decide)

/-- C5: the per-endpoint cost equals `max(0, |actual - expected| - 5
minutes)` in whole minutes truncated toward zero; a deviation of
exactly 5 minutes costs 0 (5 minutes on both ends totals 0) and a
deviation of 6 minutes costs 1. -/
theorem gap_eq_grace_formula (a b : Int) :
    gap a b = max 0 ((|a - b| - 300).tdiv 60)
    ∧ gap (a + 300) a = 0
    ∧ gap (a + 360) a = 1
    ∧ gap (a + 300) a + gap (b + 300) b = 0 := by
  have key : ∀ x y : Int, gap x y = max 0 ((|x - y| - 300).tdiv 60) := by
    intro x y
    unfold gap GRACE
    set d : Int := |x - y| - 300 with hd
    have h1 : d.fdiv 60 = d / 60 := Int.fdiv_eq_ediv d (by norm_num)
    rcases le_or_lt 0 d with hdle | hdlt
    · rw [h1, Int.tdiv_eq_ediv hdle (by norm_num)]
    · have h2 : d.tdiv 60 = -((-d).tdiv 60) := by rw [← Int.neg_tdiv, neg_neg]
      have h3 : (-d).tdiv 60 = (-d) / 60 := Int.tdiv_eq_ediv (by omega) (by norm_num)
      have g1 : d / 60 ≤ 0 := by omega
      have g2 : -((-d) / 60) ≤ 0 := by omega
      rw [h1, h2, h3, max_eq_left g1, max_eq_left g2]
  have h300 : ∀ x : Int, gap (x + 300) x = 0 := fun x => by
    rw [key, show x + 300 - x = (300 : Int) from by ring]; decide
  refine ⟨key a b, h300 a, ?_, by rw [h300 a, h300 b]; decide⟩
  rw [key, show a + 360 - a = (360 : Int) from by ring]; decide

/-- C6 counterexample: in the end-to-end scenario (timeIn 07:58,
timeOut 17:10 on 2024-01-05, which is day 19727 of the unix epoch),
the claimed pair (winner `"08-17"`, winning cost 0) is false: the
out-punch deviates 10 minutes from the nominal 17:00 end, 5 minutes
beyond the grace period, so the winning cost is not 0. -/
theorem choose_shift_scenario_cost_not_zero :
    ¬ (choose_shift (19727 * 86400 + 28680) (19727 * 86400 + 61800) = some ("08-17".data)
        ∧ shiftCost (19727 * 86400 + 28680) (19727 * 86400 + 61800)
            ⟨"08-17".data, 8 * 3600⟩ = 0) := by
  decide

/-- C6 (amended): for timeIn 07:58 and timeOut 17:10 on 2024-01-05
(day 19727), parsed from the raw cell `"07:5817:10"`, the matcher
selects `"08-17"` — a member of the 7-template catalog — and the
winning template's total cost is 5, not 0 (in-gap 0, out-gap 5). -/
theorem choose_shift_scenario :
    parse_attendance (some ("07:5817:10".data)) 19727
        = ⟨some (19727 * 86400 + 28680), some (19727 * 86400 + 61800), false⟩
    ∧ Shift.mk ("08-17".data) (8 * 3600) ∈ SHIFTS
    ∧ choose_shift (19727 * 86400 + 28680) (19727 * 86400 + 61800) = some ("08-17".data)
    ∧ shiftCost (19727 * 86400 + 28680) (19727 * 86400 + 61800)
        ⟨"08-17".data, 8 * 3600⟩ = 5 :=
  ⟨by decide, by decide, by decide, by decide⟩

/-- C7: the matcher selects the template with the strictly lowest total
cost in catalog order: if entry `i` costs no more than every entry and
strictly less than every earlier entry, its id is returned (the
comparison is a strict `<`, so a later equal-cost template never
replaces an earlier one). -/
theorem choose_shift_first_min (first_in last_out : Int) (catalog : List Shift)
    (i : Nat) (hi : i < catalog.length)
    (hmin : ∀ (j : Nat) (hj : j < catalog.length),
      shiftCost first_in last_out (catalog.get ⟨i, hi⟩)
        ≤ shiftCost first_in last_out (catalog.get ⟨j, hj⟩))
    (hfirst : ∀ (j : Nat) (hj : j < i),
      shiftCost first_in last_out (catalog.get ⟨i, hi⟩)
        < shiftCost first_in last_out (catalog.get ⟨j, Nat.lt_trans hj hi⟩)) :
    choose_shift_from first_in last_out catalog = some (catalog.get ⟨i, hi⟩).id := by
  cases catalog with
  | nil => exact absurd hi (Nat.not_lt_zero i)
  | cons s rest =>
    have hstep : choose_shift_from first_in last_out (s :: rest)
        = (choose_loop first_in last_out
            (some (s.id, shiftCost first_in last_out s)) rest).map Prod.fst := rfl
    cases i with
    | zero =>
      have hkeep : ∀ x ∈ rest, shiftCost first_in last_out s ≤ shiftCost first_in last_out x := by
        intro x hx
        obtain ⟨⟨j, hj⟩, hget⟩ := List.mem_iff_get.mp hx
        have h2 := hmin (j + 1) (Nat.succ_lt_succ hj)
        rwa [show (s :: rest).get ⟨j + 1, Nat.succ_lt_succ hj⟩ = rest.get ⟨j, hj⟩ from rfl,
          hget] at h2
      rw [hstep,
        choose_loop_keep first_in last_out s.id (shiftCost first_in last_out s) rest hkeep]
      rfl
    | succ i' =>
      have hi' : i' < rest.length := Nat.lt_of_succ_lt_succ hi
      have hget : (s :: rest).get ⟨i' + 1, hi⟩ = rest.get ⟨i', hi'⟩ := rfl
      have hhead : shiftCost first_in last_out (rest.get ⟨i', hi'⟩)
          < shiftCost first_in last_out s := by
        have h2 := hfirst 0 (Nat.succ_pos i')
        rwa [hget,
          show (s :: rest).get ⟨0, Nat.lt_trans (Nat.succ_pos i') hi⟩ = s from rfl] at h2
      have hminrest : ∀ (j : Nat) (hj : j < rest.length),
          shiftCost first_in last_out (rest.get ⟨i', hi'⟩)
            ≤ shiftCost first_in last_out (rest.get ⟨j, hj⟩) := by
        intro j hj
        have h2 := hmin (j + 1) (Nat.succ_lt_succ hj)
        rwa [hget,
          show (s :: rest).get ⟨j + 1, Nat.succ_lt_succ hj⟩ = rest.get ⟨j, hj⟩ from rfl] at h2
      have hfirstrest : ∀ (j : Nat) (hj : j < i'),
          shiftCost first_in last_out (rest.get ⟨i', hi'⟩)
            < shiftCost first_in last_out (rest.get ⟨j, Nat.lt_trans hj hi'⟩) := by
        intro j hj
        have h2 := hfirst (j + 1) (Nat.succ_lt_succ hj)
        rwa [hget,
          show (s :: rest).get ⟨j + 1, Nat.lt_trans (Nat.succ_lt_succ hj) hi⟩
            = rest.get ⟨j, Nat.lt_trans hj hi'⟩ from rfl] at h2
      rw [hstep,
        choose_loop_firstmin first_in last_out rest s.id (shiftCost first_in last_out s)
          i' hi' hhead hminrest hfirstrest, hget]
      rfl

/-- Witness for C7: a two-entry catalog whose entries tie on cost; the
first one wins. -/
theorem choose_shift_first_min_witness :
    choose_shift_from 0 0 [⟨"A".data, 0⟩, ⟨"B".data, 0⟩] = some ("A".data) :=
  choose_shift_first_min 0 0 [⟨"A".data, 0⟩, ⟨"B".data, 0⟩] 0 (by decide)
    (by decide) (by decide)

/-- C8: the matcher is deterministic — two runs on identical
(timeIn, timeOut) inputs and the same catalog return identical output;
the embedded `choose_shift_from` reads nothing beyond its arguments. -/
theorem choose_shift_deterministic (first_in last_out : Int) (catalog : List Shift)
    (r₁ r₂ : Option (List Char))
    (h₁ : choose_shift_from first_in last_out catalog = r₁)
    (h₂ : choose_shift_from first_in last_out catalog = r₂) : r₁ = r₂ :=
  h₁.symm.trans h₂

/-- Witness for C8 on two concrete runs over `SHIFTS`. -/
theorem choose_shift_deterministic_witness :
    (some ("06-15".data) : Option (List Char)) = some ("06-15".data) :=
  choose_shift_deterministic 0 0 SHIFTS _ _ (by decide) (by decide)

/-- C9: a parsed record flagged `needs_approval = true` is never
matched: the assigned shift is null, and so is the `shift` field of
the emitted schedule entry. -/
theorem assign_shift_needs_approval (rec : PunchRecord) (h : rec.needs_approval = true) :
    assign_shift rec = none ∧ (format_day rec (assign_shift rec)).shift = none := by
  obtain ⟨ti, to_, na⟩ := rec
  have h2 : na = true := h
  subst h2
  cases ti <;> cases to_ <;> exact ⟨rfl, rfl⟩

/-- Witness for C9 on a concrete flagged record. -/
theorem assign_shift_needs_approval_witness :
    assign_shift ⟨some 0, some 0, true⟩ = none
    ∧ (format_day ⟨some 0, some 0, true⟩ (assign_shift ⟨some 0, some 0, true⟩)).shift = none :=
  assign_shift_needs_approval ⟨some 0, some 0, true⟩ rfl

/-- C10 (implicit): for a trimmed input of clean length (10, or more
than 10 and a multiple of 5) whose first or last 5-character token
fails to parse, the parser returns that endpoint as null with
`needsApproval = false`; the pipeline then assigns no shift, yet the
emitted record carries `approval = true` — the day is reported clean
despite a malformed token and no assigned shift. -/
theorem process_day_malformed_token (s : List Char) (day : Int) (hs : pyStrip s = s)
    (hlen : s.length = 10 ∨ (10 < s.length ∧ s.length % 5 = 0))
    (hbad : to_dt day (s.take 5) = none ∨ to_dt day (s.drop (s.length - 5)) = none) :
    (parse_attendance (some s) day).needs_approval = false
    ∧ assign_shift (parse_attendance (some s) day) = none
    ∧ (process_day (some s) day).shift = none
    ∧ (process_day (some s) day).approval = true := by
  have hparse : parse_attendance (some s) day
      = ⟨to_dt day (s.take 5), to_dt day (s.drop (s.length - 5)), false⟩ := by
    rcases hlen with h10 | ⟨hgt, hmod⟩
    · rw [parse_attendance_len10 s day hs h10, h10]
    · exact parse_attendance_lengt10 s day hs hgt hmod
  have hassign : assign_shift (parse_attendance (some s) day) = none := by
    rw [hparse]
    rcases hbad with hb | hb
    · rw [hb]; exact assign_shift_no_in _ _
    · rw [hb]; exact assign_shift_no_out _ _
  refine ⟨by rw [hparse], hassign, hassign, ?_⟩
  show (!(parse_attendance (some s) day).needs_approval) = true
  rw [hparse]
  rfl

/-- Witness for C10: `"XX:XX17:00"` has clean length 10 but an
unparseable first token. -/
theorem process_day_malformed_token_witness :
    (parse_attendance (some ("XX:XX17:00".data)) 0).needs_approval = false
    ∧ assign_shift (parse_attendance (some ("XX:XX17:00".data)) 0) = none
    ∧ (process_day (some ("XX:XX17:00".data)) 0).shift = none
    ∧ (process_day (some ("XX:XX17:00".data)) 0).approval = true :=
  process_day_malformed_token ("XX:XX17:00".data) 0 (by decide)
    (Or.inl (by decide)) (Or.inl (by decide))
